import Mathlib

/-!
# TaskForge core: shallow embedding

A shallow embedding in Lean 4 of the task/progression core of `src/Game.py`
(TaskForge): the data model (`Task`, `Player`, history entries, application
state), the Task Registry operations (`add_task`, `edit_task`, `delete_task`,
`next_task_id`), the Progression Engine entry point (`complete_task_by_id`
with `check_level_up`), and the Persistence Store (`save_state`/`load_state`
over a JSON value model).

Modelling conventions:
* Python machine-free integers that are only ever non-negative in the claims
  under study (ids, XP, levels, streaks) are `Nat`; calendar-day ordinals are
  `Int` so that day deltas can be negative.
* Wall-clock reads (`datetime.now().isoformat()`, `date.today()`) and the
  random draws (`random.randint(1, 4)`, `random.choice`) are passed in as
  explicit parameters.
* `datetime.fromisoformat(s).date()` (which may raise, caught by the bare
  `except`) is modelled by a parameter `pd : String → Option Int` returning
  the calendar-day ordinal of the date portion, `none` on parse failure.
* Console output (`delay_print`, feedback/motivation strings) is ignored;
  functions that only report an error through printing and an early `return`
  are modelled as returning the unchanged state plus an error code.
-/

namespace TaskForge

/-- One task record, the dict
`{id, title, xp, priority, tags, notes, done, created_at, completed_at}`
of `Game.py`. -/
structure Task where
  id : Nat
  title : String
  xp : Nat
  priority : String
  tags : List String
  notes : String
  done : Bool
  created_at : String
  completed_at : Option String
deriving Repr, DecidableEq

/-- The singleton player dict of `default_state["player"]`. -/
structure Player where
  name : String
  xp : Nat
  level : Nat
  badges : List String
  streak : Nat
  last_active_date : Option String
deriving Repr, DecidableEq

/-- One history record `{id, title, xp, when}` appended by
`complete_task_by_id`. -/
structure HistoryEntry where
  id : Nat
  title : String
  xp : Nat
  whenTs : String
deriving Repr, DecidableEq

/-- The whole application state: the top-level dict
`{player, tasks, history}`. -/
structure AppState where
  player : Player
  tasks : List Task
  history : List HistoryEntry
deriving Repr, DecidableEq

/-- `default_state` of `Game.py`. -/
def default_state : AppState :=
  { player :=
      { name := "Vicky", xp := 0, level := 1, badges := [], streak := 0,
        last_active_date := none }
    tasks := []
    history := [] }

/-- `badge_pool` of `Game.py`: pairs of badge id and display name. -/
def badge_pool : List (String × String) :=
  [ ("focus_warrior", "Focus Warrior"),
    ("deadline_crusher", "Deadline Crusher"),
    ("consistency_pro", "Consistency Pro"),
    ("task_master", "Task Master"),
    ("productivity_ninja", "Productivity Ninja") ]

/-- Error outcomes a core operation reports (by printing and returning
early in the Python source). -/
inductive TfError where
  | notFound
  | alreadyCompleted
deriving Repr, DecidableEq

/-! ## Task Registry -/

/-- `next_task_id`: `max([t.get("id", 0) for t in tasks], default=0) + 1`. -/
def next_task_id (tasks : List Task) : Nat :=
  (tasks.map Task.id).foldr max 0 + 1

/-- `add_task(title, xp=20, priority="medium", tags=None, notes="")`:
builds the new task record and appends it.  The creation timestamp
`datetime.now().isoformat()` is the parameter `createdAt`; the `save_state`
call is modelled separately (see `save_state`). -/
def add_task (st : AppState) (title : String) (xp : Nat) (priority : String)
    (tags : List String) (notes : String) (createdAt : String) : AppState :=
  let task : Task :=
    { id := next_task_id st.tasks
      title := title
      xp := xp
      priority := priority
      tags := tags
      notes := notes
      done := false
      created_at := createdAt
      completed_at := none }
  { st with tasks := st.tasks ++ [task] }

/-- The keyword arguments of `edit_task(task_id, **fields)`.  A field of
value `none` models an absent key or a key passed with value `None`; every
key listed here is present on every task dict, so `k in t` holds for each.
(`completed_at` carries a `String` because a `None` value is skipped by the
`v is not None` test, so `edit_task` can only ever store a string there.) -/
structure EditFields where
  title : Option String := none
  xp : Option Nat := none
  priority : Option String := none
  tags : Option (List String) := none
  notes : Option String := none
  id : Option Nat := none
  done : Option Bool := none
  created_at : Option String := none
  completed_at : Option String := none
deriving Repr, DecidableEq

/-- The loop `for k, v in fields.items(): if k in t and v is not None:
t[k] = v` of `edit_task`, applied to one task record. -/
def apply_fields (t : Task) (f : EditFields) : Task :=
  { id := f.id.getD t.id
    title := f.title.getD t.title
    xp := f.xp.getD t.xp
    priority := f.priority.getD t.priority
    tags := f.tags.getD t.tags
    notes := f.notes.getD t.notes
    done := f.done.getD t.done
    created_at := f.created_at.getD t.created_at
    completed_at :=
      match f.completed_at with
      | some s => some s
      | none => t.completed_at }

/-- In-place mutation of the first task whose id matches, as done through
the alias `t` returned by `next((x for x in tasks if x["id"] == task_id), None)`. -/
def edit_first (tasks : List Task) (task_id : Nat) (f : EditFields) : List Task :=
  match tasks with
  | [] => []
  | t :: rest =>
      if t.id == task_id then apply_fields t f :: rest
      else t :: edit_first rest task_id f

/-- `edit_task(task_id, **fields)`: `NotFound` (printed) leaves the state
unchanged; otherwise the first matching task is updated in place. -/
def edit_task (st : AppState) (task_id : Nat) (f : EditFields) :
    AppState × Option TfError :=
  match st.tasks.find? (fun x => x.id == task_id) with
  | none => (st, some TfError.notFound)
  | some _ => ({ st with tasks := edit_first st.tasks task_id f }, none)

/-- `delete_task(task_id)`: removes every task matching the id and reports
how many were removed. -/
def delete_task (st : AppState) (task_id : Nat) : AppState × Nat :=
  let tasks' := st.tasks.filter (fun x => x.id ≠ task_id)
  ({ st with tasks := tasks' }, st.tasks.length - tasks'.length)

/-! ## Progression Engine -/

/-- `check_level_up`: `required = level * 150; while xp >= required:
xp -= required; level += 1; required = level * 150`.  Returns the final
`(xp, level)` pair. -/
def check_level_up (xp level : Nat) : Nat × Nat :=
  if level * 150 ≤ xp then check_level_up (xp - level * 150) (level + 1)
  else (xp, level)
termination_by xp + (1 - min level 1)
decreasing_by
  simp_wf
  omega

/-- The streak branch of `complete_task_by_id` (lines 179–195): compares
today (`today : Int`, a calendar-day ordinal) with the parsed date portion
of the stored `last_active_date`; `pd` models
`datetime.fromisoformat(·).date()`, returning `none` when the bare
`except` would fire. -/
def update_streak (pd : String → Option Int) (today : Int)
    (last : Option String) (streak : Nat) : Nat :=
  match last with
  | none => 1
  | some s =>
      match pd s with
      | none => 1
      | some d =>
          if today - d = 0 then streak
          else if today - d = 1 then streak + 1
          else 1

/-- Marking the first task whose id matches as done, stamping
`completed_at` — the mutation of the alias `t` inside `complete_task_by_id`. -/
def setDoneFirst (tasks : List Task) (task_id : Nat) (nowIso : String) :
    List Task :=
  match tasks with
  | [] => []
  | t :: rest =>
      if t.id == task_id then
        { t with done := true, completed_at := some nowIso } :: rest
      else t :: setDoneFirst rest task_id nowIso

/-- The badge branch: `if random.randint(1, 4) == 1` (`roll` is the draw),
pick `badge_pool[bIdx % 5]` (`bIdx` encodes `random.choice`), and append
its id if not already held. -/
def apply_badge (roll bIdx : Nat) (badges : List String) : List String :=
  if roll = 1 then
    let b := badge_pool.getD (bIdx % badge_pool.length) ("", "")
    if badges.contains b.1 then badges else badges ++ [b.1]
  else badges

/-- `complete_task_by_id(task_id)`: the Progression Engine entry point.
`nowIso` is `datetime.now().isoformat()`, `today` the ordinal of
`date.today()`, `roll`/`bIdx` the two random draws, `pd` the date parser.
On a precondition failure the Python function prints and returns before
any mutation, so the state comes back unchanged with an error code. -/
def complete_task_by_id (pd : String → Option Int) (nowIso : String)
    (today : Int) (roll bIdx : Nat) (st : AppState) (task_id : Nat) :
    AppState × Option TfError :=
  match st.tasks.find? (fun x => x.id == task_id) with
  | none => (st, some TfError.notFound)
  | some t =>
      if t.done then (st, some TfError.alreadyCompleted)
      else
        let tasks' := setDoneFirst st.tasks task_id nowIso
        let xpAwarded := st.player.xp + t.xp
        let history' := st.history ++
          [{ id := t.id, title := t.title, xp := t.xp, whenTs := nowIso }]
        let streak' :=
          update_streak pd today st.player.last_active_date st.player.streak
        let badges' := apply_badge roll bIdx st.player.badges
        let r := check_level_up xpAwarded st.player.level
        ({ player :=
             { st.player with
                 xp := r.1
                 level := r.2
                 badges := badges'
                 streak := streak'
                 last_active_date := some nowIso }
           tasks := tasks'
           history := history' }, none)

/-! ## Persistence Store

The durable file is modelled at the level of the parsed JSON value.  A
file-system read result is `Option (Option Json)`: `none` when
`os.path.exists` fails, `some none` when opening or `json.load` raises
(caught by `except Exception`), and `some (some j)` for a successfully
parsed value `j`.  `save_state` is the `json.dump` serialization of a
well-shaped state; `load_state` decodes.  A top-level key that is present
but not decodable into the data-model shape is mapped to the default for
that key; the Python code would instead keep the raw value and fail later
when the core first touches it, a region outside every claim studied
here. -/

/-- A parsed JSON value (`json.load` output). -/
inductive Json where
  | null : Json
  | bool : Bool → Json
  | num : Int → Json
  | str : String → Json
  | arr : List Json → Json
  | obj : List (String × Json) → Json

def encodeOptStr : Option String → Json
  | none => Json.null
  | some s => Json.str s

def decodeOptStr : Json → Option (Option String)
  | Json.null => some none
  | Json.str s => some (some s)
  | _ => none

def decodeStr : Json → Option String
  | Json.str s => some s
  | _ => none

def decodeNat : Json → Option Nat
  | Json.num i => if 0 ≤ i then some i.toNat else none
  | _ => none

def decodeBool : Json → Option Bool
  | Json.bool b => some b
  | _ => none

/-- Decodes every element of a JSON array, failing if any element fails
(the all-or-nothing behaviour of parsing a JSON list of records). -/
def decodeList {α : Type} (g : Json → Option α) : List Json → Option (List α)
  | [] => some []
  | j :: rest => do
      let a ← g j
      let as ← decodeList g rest
      some (a :: as)

def decodeStrList : Json → Option (List String)
  | Json.arr xs => decodeList decodeStr xs
  | _ => none

def encodePlayer (p : Player) : Json :=
  Json.obj
    [ ("name", Json.str p.name),
      ("xp", Json.num p.xp),
      ("level", Json.num p.level),
      ("badges", Json.arr (p.badges.map Json.str)),
      ("streak", Json.num p.streak),
      ("last_active_date", encodeOptStr p.last_active_date) ]

def decodePlayer : Json → Option Player
  | Json.obj kvs => do
      let name ← (kvs.lookup "name").bind decodeStr
      let xp ← (kvs.lookup "xp").bind decodeNat
      let level ← (kvs.lookup "level").bind decodeNat
      let badges ← (kvs.lookup "badges").bind decodeStrList
      let streak ← (kvs.lookup "streak").bind decodeNat
      let last ← (kvs.lookup "last_active_date").bind decodeOptStr
      some { name := name, xp := xp, level := level, badges := badges,
             streak := streak, last_active_date := last }
  | _ => none

def encodeTask (t : Task) : Json :=
  Json.obj
    [ ("id", Json.num t.id),
      ("title", Json.str t.title),
      ("xp", Json.num t.xp),
      ("priority", Json.str t.priority),
      ("tags", Json.arr (t.tags.map Json.str)),
      ("notes", Json.str t.notes),
      ("done", Json.bool t.done),
      ("created_at", Json.str t.created_at),
      ("completed_at", encodeOptStr t.completed_at) ]

def decodeTask : Json → Option Task
  | Json.obj kvs => do
      let id ← (kvs.lookup "id").bind decodeNat
      let title ← (kvs.lookup "title").bind decodeStr
      let xp ← (kvs.lookup "xp").bind decodeNat
      let priority ← (kvs.lookup "priority").bind decodeStr
      let tags ← (kvs.lookup "tags").bind decodeStrList
      let notes ← (kvs.lookup "notes").bind decodeStr
      let done ← (kvs.lookup "done").bind decodeBool
      let created ← (kvs.lookup "created_at").bind decodeStr
      let completed ← (kvs.lookup "completed_at").bind decodeOptStr
      some { id := id, title := title, xp := xp, priority := priority,
             tags := tags, notes := notes, done := done,
             created_at := created, completed_at := completed }
  | _ => none

def encodeHistoryEntry (h : HistoryEntry) : Json :=
  Json.obj
    [ ("id", Json.num h.id),
      ("title", Json.str h.title),
      ("xp", Json.num h.xp),
      ("when", Json.str h.whenTs) ]

def decodeHistoryEntry : Json → Option HistoryEntry
  | Json.obj kvs => do
      let id ← (kvs.lookup "id").bind decodeNat
      let title ← (kvs.lookup "title").bind decodeStr
      let xp ← (kvs.lookup "xp").bind decodeNat
      let whenTs ← (kvs.lookup "when").bind decodeStr
      some { id := id, title := title, xp := xp, whenTs := whenTs }
  | _ => none

def decodeTaskList : Json → Option (List Task)
  | Json.arr xs => decodeList decodeTask xs
  | _ => none

def decodeHistoryList : Json → Option (List HistoryEntry)
  | Json.arr xs => decodeList decodeHistoryEntry xs
  | _ => none

/-- `save_state(state)` on the success path: the JSON value `json.dump`
writes to `taskforge_save.json`. -/
def save_state (st : AppState) : Json :=
  Json.obj
    [ ("player", encodePlayer st.player),
      ("tasks", Json.arr (st.tasks.map encodeTask)),
      ("history", Json.arr (st.history.map encodeHistoryEntry)) ]

/-- `load_state()`: a missing file (`none`) or a raising read/parse
(`some none`) yields `default_state.copy()`; a parsed value that is not a
mapping makes the `state[k] = ...` backfill raise, also caught, yielding
the default; a mapping has each of the top-level keys `player`, `tasks`,
`history` backfilled from `default_state` when absent. -/
def load_state (file : Option (Option Json)) : AppState :=
  match file with
  | none => default_state
  | some none => default_state
  | some (some (Json.obj kvs)) =>
      { player := ((kvs.lookup "player").bind decodePlayer).getD default_state.player
        tasks := ((kvs.lookup "tasks").bind decodeTaskList).getD default_state.tasks
        history := ((kvs.lookup "history").bind decodeHistoryList).getD default_state.history }
  | some (some _) => default_state

/-! ## Session Shell fragments needed by the claims -/

/-- Python `str.strip()`: drops leading and trailing whitespace.  Written
over the character list so that concrete instances evaluate. -/
def pyStrip (s : String) : String :=
  String.mk
    (((s.data.dropWhile Char.isWhitespace).reverse.dropWhile
        Char.isWhitespace).reverse)

/-- `prompt_add_task()` of the Session Shell, as a function of the raw
`input()` strings: the empty-title guard lives here, not in `add_task`.
`int(xp_in) if xp_in.isdigit() else 30` is `String.toNat?` with default
30, and the tag line is split on commas. -/
def prompt_add_task (titleInput xpInput priorityInput tagsInput notesInput
    createdAt : String) (st : AppState) : AppState :=
  let title := pyStrip titleInput
  if title = "" then st
  else
    let xp := ((pyStrip xpInput).toNat?).getD 30
    let priority :=
      if pyStrip priorityInput = "" then "medium" else pyStrip priorityInput
    let tags :=
      if pyStrip tagsInput = "" then []
      else ((pyStrip tagsInput).splitOn ",").map pyStrip
    add_task st title xp priority tags (pyStrip notesInput) createdAt

/-! ## Operation sequences over the Task Registry (for the id-assignment
properties) -/

/-- One Task Registry mutation: an `add_task` call (with its arguments)
or a `delete_task` call. -/
inductive RegOp where
  | add : String → Nat → String → List String → String → String → RegOp
  | del : Nat → RegOp
deriving Repr

/-- Runs a sequence of registry operations, returning the final state and
the list of ids assigned by the `add` calls, in assignment order. -/
def run_ops (st : AppState) : List RegOp → AppState × List Nat
  | [] => (st, [])
  | RegOp.add title xp priority tags notes ca :: rest =>
      let newId := next_task_id st.tasks
      let out := run_ops (add_task st title xp priority tags notes ca) rest
      (out.1, newId :: out.2)
  | RegOp.del i :: rest => run_ops (delete_task st i).1 rest

/-! ## Helper lemmas -/

/-- The `while` loop of `check_level_up` runs to fixpoint: on return the
guard `xp >= level * 150` is false. -/
lemma check_level_up_fix (xp level : Nat) :
    (check_level_up xp level).1 < (check_level_up xp level).2 * 150 := by
  induction xp, level using check_level_up.induct with
  | case1 xp level h ih =>
      rw [check_level_up.eq_def]
      simpa [h] using ih
  | case2 xp level h =>
      rw [check_level_up.eq_def]
      simpa [h] using by omega

/-- `check_level_up` never decreases the level. -/
lemma check_level_up_level_le (xp level : Nat) :
    level ≤ (check_level_up xp level).2 := by
  induction xp, level using check_level_up.induct with
  | case1 xp level h ih =>
      rw [check_level_up.eq_def]
      simpa [h] using le_trans (Nat.le_succ level) ih
  | case2 xp level h =>
      rw [check_level_up.eq_def]
      simp [h]

/-- Every element of a `Nat` list is bounded by the `foldr max 0`. -/
lemma le_foldr_max {l : List Nat} {a : Nat} (h : a ∈ l) :
    a ≤ l.foldr max 0 := by
  induction l with
  | nil => cases h
  | cons b t ih =>
      rcases List.mem_cons.mp h with rfl | h
      · exact le_max_left _ _
      · exact le_trans (ih h) (le_max_right _ _)

/-- Freshness of `next_task_id`: it exceeds every id in the list. -/
lemma id_lt_next_task_id {tasks : List Task} {t : Task} (h : t ∈ tasks) :
    t.id < next_task_id tasks := by
  have : t.id ∈ tasks.map Task.id := List.mem_map_of_mem Task.id h
  have := le_foldr_max this
  unfold next_task_id
  omega

/-- Appending a task carrying the fresh id preserves id uniqueness. -/
lemma nodup_ids_add {tasks : List Task} (hnd : (tasks.map Task.id).Nodup)
    {t : Task} (ht : t.id = next_task_id tasks) :
    ((tasks ++ [t]).map Task.id).Nodup := by
  rw [List.map_append, List.nodup_append]
  refine ⟨hnd, List.nodup_singleton _, ?_⟩
  intro a ha hb
  simp only [List.map_cons, List.map_nil, List.mem_singleton] at hb
  rcases List.mem_map.mp ha with ⟨u, hu, rfl⟩
  have := id_lt_next_task_id hu
  omega

/-- Filtering preserves id uniqueness. -/
lemma nodup_ids_filter {tasks : List Task} (hnd : (tasks.map Task.id).Nodup)
    (p : Task → Bool) : ((tasks.filter p).map Task.id).Nodup :=
  hnd.sublist ((List.filter_sublist tasks).map Task.id)

/-- The id-uniqueness invariant is preserved by every registry run. -/
lemma run_ops_nodup {st : AppState} (hnd : (st.tasks.map Task.id).Nodup) :
    ∀ ops : List RegOp, (((run_ops st ops).1.tasks).map Task.id).Nodup := by
  intro ops
  induction ops generalizing st with
  | nil => simpa [run_ops] using hnd
  | cons op rest ih =>
      cases op with
      | add title xp priority tags notes ca =>
          have hnd' : ((add_task st title xp priority tags notes ca).tasks.map Task.id).Nodup := by
            unfold add_task
            exact nodup_ids_add hnd rfl
          simpa [run_ops] using ih hnd'
      | del i =>
          have hnd' : (((delete_task st i).1.tasks).map Task.id).Nodup := by
            unfold delete_task
            exact nodup_ids_filter hnd _
          simpa [run_ops] using ih hnd'

/-- `find?` on the list after `setDoneFirst` yields the completed copy of
whatever `find?` yielded before. -/
lemma find?_setDoneFirst (tasks : List Task) (tid : Nat) (nowIso : String) :
    (setDoneFirst tasks tid nowIso).find? (fun x => x.id == tid) =
      (tasks.find? (fun x => x.id == tid)).map
        (fun t => { t with done := true, completed_at := some nowIso }) := by
  induction tasks with
  | nil => simp [setDoneFirst]
  | cons t rest ih =>
      by_cases h : t.id = tid
      · have hb : (t.id == tid) = true := by simpa using h
        simp [setDoneFirst, List.find?, hb]
      · have hb : (t.id == tid) = false := by simpa using h
        simp [setDoneFirst, List.find?, hb, ih]

/-- Inversion of a successful `complete_task_by_id` call: the task was
found with `done = false`, and the resulting state is the one built by
the body. -/
lemma complete_task_success_inv {pd : String → Option Int} {nowIso : String}
    {today : Int} {roll bIdx : Nat} {st : AppState} {tid : Nat} {st' : AppState}
    (h : complete_task_by_id pd nowIso today roll bIdx st tid = (st', none)) :
    ∃ t : Task, st.tasks.find? (fun x => x.id == tid) = some t ∧
      t.done = false ∧
      st' =
        { player :=
            { st.player with
                xp := (check_level_up (st.player.xp + t.xp) st.player.level).1
                level := (check_level_up (st.player.xp + t.xp) st.player.level).2
                badges := apply_badge roll bIdx st.player.badges
                streak := update_streak pd today st.player.last_active_date
                  st.player.streak
                last_active_date := some nowIso }
          tasks := setDoneFirst st.tasks tid nowIso
          history := st.history ++
            [{ id := t.id, title := t.title, xp := t.xp, whenTs := nowIso }] } := by
  rcases hfind : st.tasks.find? (fun x => x.id == tid) with _ | t
  · simp [complete_task_by_id, hfind] at h
  · cases hd : t.done with
    | true => simp [complete_task_by_id, hfind, hd] at h
    | false =>
        refine ⟨t, hfind, hd, ?_⟩
        simp only [complete_task_by_id, hfind, hd, if_false, Bool.false_eq_true,
          Prod.mk.injEq] at h
        exact h.1.symm

/-! Round-trip lemmas for the JSON encoding. -/

lemma decodeOptStr_encodeOptStr (o : Option String) :
    decodeOptStr (encodeOptStr o) = some o := by
  cases o <;> rfl

lemma decodeNat_encodeNat (n : Nat) : decodeNat (Json.num n) = some n := by
  simp [decodeNat]

lemma decodeList_encode {α : Type} {g : Json → Option α} {f : α → Json}
    (hg : ∀ a, g (f a) = some a) (xs : List α) :
    decodeList g (xs.map f) = some xs := by
  induction xs with
  | nil => rfl
  | cons a rest ih => simp [decodeList, hg, ih]

lemma decodeStrList_encode (xs : List String) :
    decodeStrList (Json.arr (xs.map Json.str)) = some xs := by
  simpa [decodeStrList] using
    decodeList_encode (g := decodeStr) (f := Json.str) (fun _ => rfl) xs

lemma decodePlayer_encodePlayer (p : Player) :
    decodePlayer (encodePlayer p) = some p := by
  cases p
  simp [decodePlayer, encodePlayer, List.lookup, decodeStr,
    decodeNat_encodeNat, decodeStrList_encode, decodeOptStr_encodeOptStr]

lemma decodeTask_encodeTask (t : Task) :
    decodeTask (encodeTask t) = some t := by
  cases t
  simp [decodeTask, encodeTask, List.lookup, decodeStr, decodeBool,
    decodeNat_encodeNat, decodeStrList_encode, decodeOptStr_encodeOptStr]

lemma decodeHistoryEntry_encodeHistoryEntry (h : HistoryEntry) :
    decodeHistoryEntry (encodeHistoryEntry h) = some h := by
  cases h
  simp [decodeHistoryEntry, encodeHistoryEntry, List.lookup, decodeStr,
    decodeNat_encodeNat]

/-! Frame lemmas for `edit_task`. -/

/-- When none of the four protected keys is supplied, `apply_fields`
leaves them untouched. -/
lemma apply_fields_frame {f : EditFields} (h1 : f.id = none)
    (h2 : f.done = none) (h3 : f.created_at = none)
    (h4 : f.completed_at = none) (t : Task) :
    (apply_fields t f).id = t.id ∧ (apply_fields t f).done = t.done ∧
      (apply_fields t f).created_at = t.created_at ∧
      (apply_fields t f).completed_at = t.completed_at := by
  simp [apply_fields, h1, h2, h3, h4]

/-- `edit_first` relates the old and new task lists pointwise by the
frame relation on the protected fields. -/
lemma forall₂_edit_first {f : EditFields} (h1 : f.id = none)
    (h2 : f.done = none) (h3 : f.created_at = none)
    (h4 : f.completed_at = none) (tasks : List Task) (tid : Nat) :
    List.Forall₂
      (fun a b => b.id = a.id ∧ b.done = a.done ∧
        b.created_at = a.created_at ∧ b.completed_at = a.completed_at)
      tasks (edit_first tasks tid f) := by
  induction tasks with
  | nil => exact List.Forall₂.nil
  | cons t rest ih =>
      by_cases h : t.id == tid
      · simp only [edit_first, h, if_true]
        exact List.Forall₂.cons (apply_fields_frame h1 h2 h3 h4 t)
          ((List.forall₂_same).mpr (fun a _ => ⟨rfl, rfl, rfl, rfl⟩))
      · simp only [edit_first, h, if_false]
        exact List.Forall₂.cons ⟨rfl, rfl, rfl, rfl⟩ ih

/-! ## Concrete example data shared by the claim theorems -/

/-- A pending task with the given id and XP reward. -/
def mkTask (i xp : Nat) : Task :=
  { id := i, title := "t", xp := xp, priority := "medium", tags := [],
    notes := "", done := false, created_at := "c0", completed_at := none }

/-- A date parser for the scenario runs: day ordinals 0 and 1 for the two
timestamps used, parse failure on anything else. -/
def pdTest : String → Option Int :=
  fun s => if s = "d0" then some 0 else if s = "d1" then some 1 else none

/-- A fresh state holding one pending 320-XP task. -/
def bigTaskState : AppState :=
  { default_state with tasks := [mkTask 1 320] }

/-- A fresh state holding three pending 10-XP tasks. -/
def threeTaskState : AppState :=
  { default_state with tasks := [mkTask 1 10, mkTask 2 10, mkTask 3 10] }

/-- The state after completing task 1 of `threeTaskState` on day D
(ordinal 0, timestamp `d0`). -/
def dayDState : AppState :=
  (complete_task_by_id pdTest "d0" 0 2 0 threeTaskState 1).1

/-! ## Claim theorems -/

/-- C1: the level-up normalization of `complete_task_by_id` runs the loop
`while xp >= level * 150: xp -= level * 150; level += 1; recompute` to
fixpoint in a single call (on return the guard is false), and for a
player at level 1 with 0 XP, completing a 320-XP task leaves the player
at level 2 with 170 XP. -/
theorem C1_level_up_normalization :
    (∀ xp level : Nat,
        check_level_up xp level =
          if level * 150 ≤ xp then
            check_level_up (xp - level * 150) (level + 1)
          else (xp, level)) ∧
    (∀ xp level : Nat,
        (check_level_up xp level).1 < (check_level_up xp level).2 * 150) ∧
    (complete_task_by_id pdTest "d0" 0 2 0 bigTaskState 1).1.player.level = 2 ∧
    (complete_task_by_id pdTest "d0" 0 2 0 bigTaskState 1).1.player.xp = 170 := by
  refine ⟨fun xp level => check_level_up.eq_def xp level, check_level_up_fix, ?_, ?_⟩ <;>
    simp [complete_task_by_id, bigTaskState, default_state, mkTask, List.find?,
      setDoneFirst, update_streak, apply_badge, check_level_up]

/-- C4 counterexample: calling `add_task` with an empty title appends a
task anyway — there is no empty-title check inside `add_task`, so the
claim that the registry `add` rejects empty titles with `InvalidArgument`
and appends nothing is false on this input. -/
theorem C4_counterexample :
    (add_task default_state "" 20 "medium" [] "" "c0").tasks =
      [{ id := 1, title := "", xp := 20, priority := "medium", tags := [],
         notes := "", done := false, created_at := "c0",
         completed_at := none }] := by
  decide

/-- C4 amended: `add_task` appends the new record unconditionally,
whatever the title; the empty-title rejection lives in the Session
Shell's `prompt_add_task`, which returns without calling `add_task` when
the stripped title is empty, so no task is appended on that path. -/
theorem C4_empty_title_guard_in_shell :
    (∀ (st : AppState) (title : String) (xp : Nat) (priority : String)
        (tags : List String) (notes ca : String),
        (add_task st title xp priority tags notes ca).tasks =
          st.tasks ++
            [{ id := next_task_id st.tasks, title := title, xp := xp,
               priority := priority, tags := tags, notes := notes,
               done := false, created_at := ca, completed_at := none }]) ∧
    (∀ (tIn xIn pIn tgIn nIn ca : String) (st : AppState),
        pyStrip tIn = "" → prompt_add_task tIn xIn pIn tgIn nIn ca st = st) := by
  constructor
  · intro st title xp priority tags notes ca
    rfl
  · intro tIn xIn pIn tgIn nIn ca st h
    simp [prompt_add_task, h]

/-- Witness for C4's amended theorem at a concrete blank title. -/
theorem C4_empty_title_guard_in_shell_witness :
    pyStrip "  " = "" ∧
      prompt_add_task "  " "" "" "" "" "c0" default_state = default_state :=
  ⟨by decide,
    C4_empty_title_guard_in_shell.2 "  " "" "" "" "" "c0" default_state
      (by decide)⟩

/-- C5 counterexample: `edit_task` checks `k in t`, and `done` is a key
of every task dict, so a fields mapping carrying `done=True` flips the
task's `done` flag — the claim that `edit` never modifies `done` is
false on this input. -/
theorem C5_counterexample :
    (mkTask 1 20).done = false ∧
      ((edit_task { default_state with tasks := [mkTask 1 20] } 1
          { done := some true }).1.tasks.map Task.done) = [true] := by
  decide

/-- C5 amended: `edit_task` applies every non-`None` value whose key is
present on the task dict — including `id`, `done`, `created_at` and
`completed_at`; when the fields mapping supplies none of those four,
the edit leaves every task's id, done flag and timestamps unchanged,
and never touches the player or the history. -/
theorem C5_edit_frame :
    ∀ (st : AppState) (tid : Nat) (f : EditFields),
      f.id = none → f.done = none → f.created_at = none →
      f.completed_at = none →
      (edit_task st tid f).1.player = st.player ∧
      (edit_task st tid f).1.history = st.history ∧
      List.Forall₂
        (fun a b => b.id = a.id ∧ b.done = a.done ∧
          b.created_at = a.created_at ∧ b.completed_at = a.completed_at)
        st.tasks (edit_task st tid f).1.tasks := by
  intro st tid f h1 h2 h3 h4
  rcases hfind : st.tasks.find? (fun x => x.id == tid) with _ | t
  · refine ⟨by simp [edit_task, hfind], by simp [edit_task, hfind], ?_⟩
    have : (edit_task st tid f).1.tasks = st.tasks := by simp [edit_task, hfind]
    rw [this]
    exact (List.forall₂_same).mpr (fun a _ => ⟨rfl, rfl, rfl, rfl⟩)
  · refine ⟨by simp [edit_task, hfind], by simp [edit_task, hfind], ?_⟩
    have : (edit_task st tid f).1.tasks = edit_first st.tasks tid f := by
      simp [edit_task, hfind]
    rw [this]
    exact forall₂_edit_first h1 h2 h3 h4 st.tasks tid

/-- Witness for C5's amended theorem: a title-only edit of a one-task
state. -/
theorem C5_edit_frame_witness :
    (edit_task { default_state with tasks := [mkTask 1 20] } 1
        { title := some "renamed" }).1.player = default_state.player ∧
    (edit_task { default_state with tasks := [mkTask 1 20] } 1
        { title := some "renamed" }).1.history = default_state.history ∧
    List.Forall₂
      (fun a b => b.id = a.id ∧ b.done = a.done ∧
        b.created_at = a.created_at ∧ b.completed_at = a.completed_at)
      [mkTask 1 20]
      (edit_task { default_state with tasks := [mkTask 1 20] } 1
        { title := some "renamed" }).1.tasks :=
  C5_edit_frame { default_state with tasks := [mkTask 1 20] } 1
    { title := some "renamed" } rfl rfl rfl rfl

/-- The operation sequence add, add, delete 2, add: the deletion removes
the task holding the maximal id, which is then reassigned. -/
def opsReuse : List RegOp :=
  [RegOp.add "a" 20 "medium" [] "" "c1",
   RegOp.add "b" 20 "medium" [] "" "c2",
   RegOp.del 2,
   RegOp.add "c" 20 "medium" [] "" "c3"]

/-- C6 counterexample: after add, add, delete 2, add the assigned ids are
1, 2, 2 — neither strictly increasing in assignment order nor unique
across assignments, so the claim as stated is false (max-based
assignment reuses the id of a deleted maximum). -/
theorem C6_counterexample :
    (run_ops default_state opsReuse).2 = [1, 2, 2] ∧
    ¬ List.Chain' (· < ·) (run_ops default_state opsReuse).2 ∧
    ¬ (run_ops default_state opsReuse).2.Nodup := by
  have h : (run_ops default_state opsReuse).2 = [1, 2, 2] := by decide
  refine ⟨h, ?_, ?_⟩ <;> rw [h] <;> simp

/-- C6 amended: each `add` assigns id = (max existing id, or 0) + 1,
which is strictly greater than every id currently in the registry, so
the ids of the live tasks stay unique through any add/delete sequence;
but deleting the task with the maximal id lets that id be reassigned, so
the ids in assignment order need not be strictly increasing. -/
theorem C6_fresh_ids_unique :
    (∀ (tasks : List Task) (t : Task), t ∈ tasks → t.id < next_task_id tasks) ∧
    (∀ ops : List RegOp,
        (((run_ops default_state ops).1.tasks).map Task.id).Nodup) := by
  refine ⟨fun _ _ h => id_lt_next_task_id h, fun ops => run_ops_nodup ?_ ops⟩
  simp [default_state]

/-- Witness for C6's amended theorem at a one-task registry. -/
theorem C6_fresh_ids_unique_witness :
    mkTask 1 20 ∈ [mkTask 1 20] ∧
      (mkTask 1 20).id < next_task_id [mkTask 1 20] :=
  ⟨List.mem_singleton_self _,
    C6_fresh_ids_unique.1 [mkTask 1 20] (mkTask 1 20)
      (List.mem_singleton_self _)⟩

/-- C2: a `complete_task_by_id` call that fails a precondition (unknown
id, or task already done) returns the state unchanged; consequently when
a call succeeds, a second call on the same id signals `AlreadyCompleted`
and changes nothing, so the pair of calls awards XP once and appends
exactly one history entry. -/
theorem C2_all_or_nothing :
    ∀ (pd : String → Option Int) (nowIso : String) (today : Int)
      (roll bIdx : Nat) (st : AppState) (tid : Nat),
      ((complete_task_by_id pd nowIso today roll bIdx st tid).2.isSome →
        (complete_task_by_id pd nowIso today roll bIdx st tid).1 = st) ∧
      (∀ (st₁ : AppState) (pd₂ : String → Option Int) (now₂ : String)
          (today₂ : Int) (roll₂ bIdx₂ : Nat),
          complete_task_by_id pd nowIso today roll bIdx st tid = (st₁, none) →
          complete_task_by_id pd₂ now₂ today₂ roll₂ bIdx₂ st₁ tid =
            (st₁, some TfError.alreadyCompleted) ∧
          st₁.history.length = st.history.length + 1) := by
  intro pd nowIso today roll bIdx st tid
  constructor
  · intro hs
    rcases hfind : st.tasks.find? (fun x => x.id == tid) with _ | t
    · simp [complete_task_by_id, hfind]
    · cases hd : t.done with
      | true => simp [complete_task_by_id, hfind, hd]
      | false => simp [complete_task_by_id, hfind, hd] at hs
  · intro st₁ pd₂ now₂ today₂ roll₂ bIdx₂ hsucc
    obtain ⟨t, hfind, hd, hst⟩ := complete_task_success_inv hsucc
    constructor
    · have hfind₁ : st₁.tasks.find? (fun x => x.id == tid) =
          some { t with done := true, completed_at := some nowIso } := by
        rw [hst]
        simp [find?_setDoneFirst, hfind]
      simp [complete_task_by_id, hfind₁]
    · rw [hst]
      simp

/-- Witness for C2 at a concrete one-task state: the second completion
of task 1 is rejected and the history has grown by exactly one entry. -/
theorem C2_all_or_nothing_witness :
    complete_task_by_id pdTest "d1" 1 2 0
        (complete_task_by_id pdTest "d0" 0 2 0 threeTaskState 1).1 1 =
      ((complete_task_by_id pdTest "d0" 0 2 0 threeTaskState 1).1,
        some TfError.alreadyCompleted) ∧
    (complete_task_by_id pdTest "d0" 0 2 0 threeTaskState 1).1.history.length =
      threeTaskState.history.length + 1 :=
  (C2_all_or_nothing pdTest "d0" 0 2 0 threeTaskState 1).2
    (complete_task_by_id pdTest "d0" 0 2 0 threeTaskState 1).1
    pdTest "d1" 1 2 0
    (by
      have h2 : (complete_task_by_id pdTest "d0" 0 2 0 threeTaskState 1).2 =
          (none : Option TfError) := by
        simp [complete_task_by_id, threeTaskState, default_state, mkTask,
          List.find?]
      rw [← h2])

/-- C3: on every successful completion the streak is updated by exactly
the case split of the source — `None` stored date gives 1, same calendar
day leaves it, a one-day gap increments, anything else (including an
unparsable date) resets to 1 — and `last_active_date` is then set to the
current timestamp unconditionally; concretely, completing on day D then
D+1 yields streak 2, twice on day D leaves streak 1, and D then D+3
resets to 1. -/
theorem C3_streak_policy :
    (∀ (pd : String → Option Int) (nowIso : String) (today : Int)
        (roll bIdx : Nat) (st : AppState) (tid : Nat) (st' : AppState),
        complete_task_by_id pd nowIso today roll bIdx st tid = (st', none) →
        st'.player.last_active_date = some nowIso ∧
        (st.player.last_active_date = none → st'.player.streak = 1) ∧
        (∀ s : String, st.player.last_active_date = some s →
          (pd s = none → st'.player.streak = 1) ∧
          (∀ d : Int, pd s = some d →
            (today - d = 0 → st'.player.streak = st.player.streak) ∧
            (today - d = 1 → st'.player.streak = st.player.streak + 1) ∧
            (¬ today - d = 0 → ¬ today - d = 1 → st'.player.streak = 1)))) ∧
    dayDState.player.streak = 1 ∧
    (complete_task_by_id pdTest "d1" 1 2 0 dayDState 2).1.player.streak = 2 ∧
    (complete_task_by_id pdTest "d0" 0 2 0 dayDState 2).1.player.streak = 1 ∧
    (complete_task_by_id pdTest "d3" 3 2 0 dayDState 2).1.player.streak = 1 := by
  refine ⟨?_, ?_, ?_, ?_, ?_⟩
  · intro pd nowIso today roll bIdx st tid st' h
    obtain ⟨t, hfind, hd, hst⟩ := complete_task_success_inv h
    subst hst
    refine ⟨rfl, fun hnone => by simp [update_streak, hnone], ?_⟩
    intro s hs
    refine ⟨fun hp => by simp [update_streak, hs, hp], ?_⟩
    intro d hdp
    exact ⟨fun h0 => by simp [update_streak, hs, hdp, h0],
      fun h1 => by simp [update_streak, hs, hdp, h1],
      fun h0 h1 => by simp [update_streak, hs, hdp, h0, h1]⟩
  all_goals
    simp [dayDState, threeTaskState, default_state, mkTask, pdTest,
      complete_task_by_id, List.find?, setDoneFirst, update_streak,
      apply_badge, check_level_up]

/-- Witness for C3's case split at a concrete fresh state (stored date
`None` gives streak 1, and the timestamp is stamped). -/
theorem C3_streak_policy_witness :
    dayDState.player.last_active_date = some "d0" ∧
      (threeTaskState.player.last_active_date = none →
        dayDState.player.streak = 1) := by
  have h := (C3_streak_policy.1 pdTest "d0" 0 2 0 threeTaskState 1 dayDState
    (by
      have h2 : (complete_task_by_id pdTest "d0" 0 2 0 threeTaskState 1).2 =
          (none : Option TfError) := by
        simp [complete_task_by_id, threeTaskState, default_state, mkTask,
          List.find?]
      rw [dayDState, ← h2]))
  exact ⟨h.1, h.2.1⟩

/-- C7: `load_state` never raises — a missing file and a malformed file
both give the fresh default state (XP 0, level 1, no badges, streak 0,
no last-active date, no tasks, no history), and a valid file merely
missing one of the top-level keys has that key backfilled from the
defaults. -/
theorem C7_load_resilience :
    load_state none = default_state ∧
    load_state (some none) = default_state ∧
    default_state.player.xp = 0 ∧
    default_state.player.level = 1 ∧
    default_state.player.badges = [] ∧
    default_state.player.streak = 0 ∧
    default_state.player.last_active_date = none ∧
    default_state.tasks = [] ∧
    default_state.history = [] ∧
    (∀ kvs : List (String × Json),
      (kvs.lookup "player" = none →
        (load_state (some (some (Json.obj kvs)))).player =
          default_state.player) ∧
      (kvs.lookup "tasks" = none →
        (load_state (some (some (Json.obj kvs)))).tasks =
          default_state.tasks) ∧
      (kvs.lookup "history" = none →
        (load_state (some (some (Json.obj kvs)))).history =
          default_state.history)) := by
  refine ⟨rfl, rfl, rfl, rfl, rfl, rfl, rfl, rfl, rfl, ?_⟩
  intro kvs
  refine ⟨fun h => ?_, fun h => ?_, fun h => ?_⟩ <;> simp [load_state, h]

/-- Witness for C7's backfill clauses at the empty mapping. -/
theorem C7_load_resilience_witness :
    (([] : List (String × Json)).lookup "player" = none) ∧
      (load_state (some (some (Json.obj [])))).player =
        default_state.player := by
  obtain ⟨-, -, -, -, -, -, -, -, -, h⟩ := C7_load_resilience
  exact ⟨rfl, (h []).1 rfl⟩

/-- C8: after every successful completion the player's XP is strictly
below the `level * 150` threshold (it is a `Nat`, hence non-negative),
and the level never decreases across the call. -/
theorem C8_xp_level_invariant :
    ∀ (pd : String → Option Int) (nowIso : String) (today : Int)
      (roll bIdx : Nat) (st : AppState) (tid : Nat) (st' : AppState),
      complete_task_by_id pd nowIso today roll bIdx st tid = (st', none) →
      st'.player.xp < st'.player.level * 150 ∧
      st.player.level ≤ st'.player.level := by
  intro pd nowIso today roll bIdx st tid st' h
  obtain ⟨t, hfind, hd, hst⟩ := complete_task_success_inv h
  subst hst
  exact ⟨check_level_up_fix _ _, check_level_up_level_le _ _⟩

/-- Witness for C8 at the concrete 320-XP completion. -/
theorem C8_xp_level_invariant_witness :
    (complete_task_by_id pdTest "d0" 0 2 0 bigTaskState 1).1.player.xp <
      (complete_task_by_id pdTest "d0" 0 2 0 bigTaskState 1).1.player.level
        * 150 ∧
    bigTaskState.player.level ≤
      (complete_task_by_id pdTest "d0" 0 2 0 bigTaskState 1).1.player.level :=
  C8_xp_level_invariant pdTest "d0" 0 2 0 bigTaskState 1
    (complete_task_by_id pdTest "d0" 0 2 0 bigTaskState 1).1
    (by
      have h2 : (complete_task_by_id pdTest "d0" 0 2 0 bigTaskState 1).2 =
          (none : Option TfError) := by
        simp [complete_task_by_id, bigTaskState, default_state, mkTask,
          List.find?]
      rw [← h2])

/-- C9: persistence round-trip — for every application state, loading
the JSON that `save_state` produced reproduces the state field for
field. -/
theorem C9_save_load_round_trip :
    ∀ st : AppState, load_state (some (some (save_state st))) = st := by
  intro st
  cases st with
  | mk p ts hs =>
      simp [load_state, save_state, List.lookup, decodePlayer_encodePlayer,
        decodeTaskList, decodeHistoryList,
        decodeList_encode (g := decodeTask) (f := encodeTask)
          decodeTask_encodeTask,
        decodeList_encode (g := decodeHistoryEntry) (f := encodeHistoryEntry)
          decodeHistoryEntry_encodeHistoryEntry]

/-- A state whose stored `last_active_date` parses to a day strictly
after today (clock skew). -/
def skewState : AppState :=
  { default_state with
      player :=
        { default_state.player with streak := 5, last_active_date := some "d1" }
      tasks := [mkTask 1 10] }

/-- C10: when the stored `last_active_date` parses to a calendar day
strictly after today (negative day delta), a successful completion
resets the streak to 1 — the code treats every delta other than 0 or 1
as a gap. -/
theorem C10_negative_delta_resets :
    ∀ (pd : String → Option Int) (nowIso : String) (today : Int)
      (roll bIdx : Nat) (st : AppState) (tid : Nat) (st' : AppState)
      (s : String) (d : Int),
      complete_task_by_id pd nowIso today roll bIdx st tid = (st', none) →
      st.player.last_active_date = some s → pd s = some d → today < d →
      st'.player.streak = 1 := by
  intro pd nowIso today roll bIdx st tid st' s d h hs hdp hneg
  obtain ⟨t, hfind, hd0, hst⟩ := complete_task_success_inv h
  subst hst
  have h0 : ¬ (today - d = 0) := by omega
  have h1 : ¬ (today - d = 1) := by omega
  simp [update_streak, hs, hdp, h0, h1]

/-- Witness for C10: completing with stored date `d1` (day 1) while
today is day 0 resets the streak from 5 to 1. -/
theorem C10_negative_delta_resets_witness :
    (complete_task_by_id pdTest "d0" 0 2 0 skewState 1).1.player.streak = 1 :=
  C10_negative_delta_resets pdTest "d0" 0 2 0 skewState 1
    (complete_task_by_id pdTest "d0" 0 2 0 skewState 1).1 "d1" 1
    (by
      have h2 : (complete_task_by_id pdTest "d0" 0 2 0 skewState 1).2 =
          (none : Option TfError) := by
        simp [complete_task_by_id, skewState, default_state, mkTask,
          List.find?]
      rw [← h2])
    rfl (by decide) (by decide)

end TaskForge
